import Mathlib

/-!
Shallow embedding of the scalar-ring and group-contract layer of the
`bls12_381_relic` wrapper (`src/librelic-sys/wrapper.c`).

The wrapper delegates all big-integer, curve and pairing arithmetic to the
relic library ("the arithmetic engine", out of scope per spec §1).  Engine
primitives are modelled here by executable Lean functions realising the
capability contract of spec §6; the wrapper functions themselves are
translated line by line from `wrapper.c`.  The crate's Rust layer (error-kind
mapping) is not part of `src/`; where a claim depends on it, the definition is
modelled from the spec and carries a doc comment saying so.
-/

set_option maxRecDepth 40000

/-- The order r of the BLS12-381 pairing groups, cached by `init_relic` in the
static variable `order` via `ep_curve_get_ord`.  Decimal value of
0x73eda753299d7d483339d80809a1d80553bda402fffe5bfeffffffff00000001. -/
def orderNat : ℕ := 52435875175126190479447740508185965837690552500527637822603658699938581184513

/-- The cached group order as a signed big integer: relic `bn_t` values are
signed arbitrary-precision integers, so scalars are embedded as `ℤ`. -/
def order : ℤ := (orderNat : ℤ)

/-- Return code of the wrapper functions (`RLC_OK` / `RLC_ERR`). -/
inductive RlcCode where
  | ok : RlcCode
  | err : RlcCode
  deriving DecidableEq

/-- Error kinds of the crate's public API (spec §7). -/
inductive BlsError where
  | zeroInverse : BlsError
  | outOfRange : BlsError
  | malformedEncoding : BlsError
  | invalidElement : BlsError
  deriving DecidableEq

/-- A byte of an encoding. -/
abbrev Byte := Fin 256

/-- Big-endian interpretation of a byte string as an unsigned integer, as
performed by the engine's `bn_read_bin`. -/
def bytesToNat (src : List Byte) : ℕ :=
  src.foldl (fun acc b => 256 * acc + b.val) 0

/-- Model of the engine's `bn_add`: big-integer addition. -/
def bn_add (a b : ℤ) : ℤ := a + b

/-- Model of the engine's `bn_sub`: big-integer subtraction. -/
def bn_sub (a b : ℤ) : ℤ := a - b

/-- Model of the engine's `bn_mul`: big-integer multiplication. -/
def bn_mul (a b : ℤ) : ℤ := a * b

/-- Model of the engine's `bn_dbl`: big-integer doubling. -/
def bn_dbl (a : ℤ) : ℤ := 2 * a

/-- Model of the engine's `bn_mod`: modular reduction.  relic's `bn_mod`
normalises the remainder into the least non-negative residue class, which is
Lean's `Int.emod` (`%`) for a positive modulus. -/
def bn_mod (a m : ℤ) : ℤ := a % m

/-- Model of the engine's `bn_read_bin`: parse a big-endian byte string as an
unsigned big integer. -/
def bn_read_bin (src : List Byte) : ℤ := (bytesToNat src : ℤ)

/-- Model of the engine's `bn_mod_inv`: modular inverse computed by the
extended Euclidean algorithm on the (non-negative) operands, reduced into the
least non-negative residue class; the engine throws (here: `none`) when no
inverse exists, i.e. when gcd(a, m) ≠ 1. -/
def bn_mod_inv (a m : ℤ) : Option ℤ :=
  if Nat.gcd a.toNat m.toNat = 1 then some (Nat.gcdA a.toNat m.toNat % m) else none

/-- Translation of `wrapper_bn_add` (wrapper.c:117): `bn_add` then `bn_mod`
by the cached order. -/
def wrapper_bn_add (lhs rhs : ℤ) : ℤ :=
  bn_mod (bn_add lhs rhs) order

/-- Translation of `wrapper_bn_double` (wrapper.c:129): `bn_dbl` then
`bn_mod` by the cached order. -/
def wrapper_bn_double (src : ℤ) : ℤ :=
  bn_mod (bn_dbl src) order

/-- Translation of `wrapper_bn_neg` (wrapper.c:141): `bn_sub(order, bn)` then
`bn_mod` by the cached order. -/
def wrapper_bn_neg (bn : ℤ) : ℤ :=
  bn_mod (bn_sub order bn) order

/-- Translation of `wrapper_bn_sub` (wrapper.c:168): `bn_sub`, `bn_mod`, then
re-add the order if `bn_sign` reports a negative value. -/
def wrapper_bn_sub (lhs rhs : ℤ) : ℤ :=
  let d := bn_mod (bn_sub lhs rhs) order
  if d < 0 then bn_add d order else d

/-- Translation of `wrapper_bn_mul` (wrapper.c:199): `bn_mul`, then either
re-add the order (if `bn_sign` reports a negative product) or `bn_mod`. -/
def wrapper_bn_mul (lhs rhs : ℤ) : ℤ :=
  let d := bn_mul lhs rhs
  if d < 0 then bn_add d order else bn_mod d order

/-- Translation of `wrapper_bn_inv` (wrapper.c:215), which updates `val` in
place: the pair holds the return code and the final content of `val`.  The
zero test happens before any mutation; on the success path the result of
`bn_mod_inv` gets the order re-added if `bn_sign` reports a negative value. -/
def wrapper_bn_inv (val : ℤ) : RlcCode × ℤ :=
  if val = 0 then (.err, val)
  else
    match bn_mod_inv val order with
    | some v => (.ok, if v < 0 then bn_add v order else v)
    | none => (.err, val)

/-- Translation of `wrapper_bn_read_bin` (wrapper.c:254): `bn_read_bin`, then
`bn_mod` by the cached order when `reduce` is set. -/
def wrapper_bn_read_bin (src : List Byte) (reduce : Bool) : ℤ :=
  let v := bn_read_bin src
  if reduce then bn_mod v order else v

/-- Translation of `wrapper_bn_rand` (wrapper.c:268): `bn_read_bin` then an
unconditional `bn_mod` by the cached order. -/
def wrapper_bn_rand (src : List Byte) : ℤ :=
  bn_mod (bn_read_bin src) order

/-- Modelled from the spec: the crate's scalar `from_bytes(bytes, reduce)`.
The Rust layer above `wrapper_bn_read_bin` is part of this repository but not
under `src/`; per spec §4.1 it parses via `wrapper_bn_read_bin` and, when
`reduce` is false, fails with `OutOfRange` when the parsed integer is ≥ r. -/
def scalarFromBytes (src : List Byte) (reduce : Bool) : Except BlsError ℤ :=
  let v := wrapper_bn_read_bin src reduce
  if reduce then .ok v
  else if order ≤ v then .error .outOfRange else .ok v

/-- Cofactor of the order-r subgroup inside the model G1 curve group
(the BLS12-381 G1 cofactor 0x396c8c005555e1568c00aaab0000aaab). -/
def h1Cof : ℕ := 76329603384216526031706109802092473003

/-- Cofactor of the order-r subgroup inside the model G2 curve group
(the BLS12-381 G2 cofactor). -/
def h2Cof : ℕ := 305502333931268344200999753193121504214466019254188142667664032982267604182971884026507427359259977847832272839041616661285803823378372096355777062779109

/-- Model of the engine's curve-point representation (spec §6: the engine's
point arithmetic is out of scope).  The abstract point of the curve group —
a group of order r·h with order-r subgroup `Z_r × {0}` — is `(x, y)`; `z`
models the residual projective-representation freedom: distinct `z` values
stand for distinct non-normalised coordinate representations of the same
abstract point. -/
structure EpRepr (r h : ℕ) where
  x : ZMod r
  y : ZMod h
  z : ℕ
  deriving DecidableEq

/-- Model of the engine's `g1_cmp`/`g2_cmp` equality test: the engine compares
the abstract points (group-law comparison), not the raw representation. -/
def ep_cmp_eq {r h : ℕ} (a b : EpRepr r h) : Bool :=
  decide (a.x = b.x ∧ a.y = b.y)

/-- Model of the engine's `g1_norm`/`g2_norm`: produce the canonical (affine)
representation of the same abstract point. -/
def ep_norm {r h : ℕ} (a : EpRepr r h) : EpRepr r h :=
  ⟨a.x, a.y, 1⟩

/-- Model of the engine's `g1_is_valid`/`g2_is_valid`: on-curve (always true
for model points) and membership in the order-r subgroup. -/
def ep_is_valid {r h : ℕ} (a : EpRepr r h) : Bool :=
  decide (a.y = 0)

/-- Model of the engine's `g1_read_bin`/`g2_read_bin`: a byte string of the
engine-defined fixed length `len` decodes (in affine representation) to an
on-curve point, which need not lie in the order-r subgroup; any other length
is a malformed encoding and throws (`none`). -/
def ep_read_bin (r h len : ℕ) (src : List Byte) : Option (EpRepr r h) :=
  if src.length = len then
    some ⟨(bytesToNat src : ZMod r), (bytesToNat src : ZMod h), 1⟩
  else none

/-- Model of the engine's `g1_mul`/`g2_mul`: scalar multiplication in the
curve group. -/
def ep_mul {r h : ℕ} (a : EpRepr r h) (k : ℤ) : EpRepr r h :=
  ⟨(k : ZMod r) * a.x, (k : ZMod h) * a.y, a.z⟩

/-- The model G1 curve-point representation. -/
abbrev G1 := EpRepr orderNat h1Cof

/-- The model G2 curve-point representation. -/
abbrev G2 := EpRepr orderNat h2Cof

/-- The model GT element: the target group is cyclic of order r (spec §3);
its multiplicative structure is written additively as `ZMod orderNat`, so the
engine's `gt_exp` is scalar action. -/
abbrev Gt := ZMod orderNat

/-- Model length of the fixed binary G1 encoding. -/
def g1BinLen : ℕ := 49

/-- Model length of the fixed binary G2 encoding. -/
def g2BinLen : ℕ := 97

/-- Translation of `wrapper_g1_read_bin` (wrapper.c:468): forwards to the
engine's `g1_read_bin`; `none` models the `RLC_ERR` path. -/
def wrapper_g1_read_bin (src : List Byte) : Option G1 :=
  ep_read_bin orderNat h1Cof g1BinLen src

/-- Translation of `wrapper_g1_is_valid` (wrapper.c:483). -/
def wrapper_g1_is_valid (value : G1) : Bool :=
  ep_is_valid value

/-- Translation of `wrapper_g1_is_equal` (wrapper.c:487): `g1_cmp == RLC_EQ`. -/
def wrapper_g1_is_equal (lhs rhs : G1) : Bool :=
  ep_cmp_eq lhs rhs

/-- Translation of `wrapper_g1_norm` (wrapper.c:435). -/
def wrapper_g1_norm (src : G1) : G1 :=
  ep_norm src

/-- Translation of `wrapper_g1_mul` (wrapper.c:424). -/
def wrapper_g1_mul (lhs : G1) (rhs : ℤ) : G1 :=
  ep_mul lhs rhs

/-- Translation of `wrapper_g2_read_bin` (wrapper.c:671). -/
def wrapper_g2_read_bin (src : List Byte) : Option G2 :=
  ep_read_bin orderNat h2Cof g2BinLen src

/-- Translation of `wrapper_g2_is_valid` (wrapper.c:686). -/
def wrapper_g2_is_valid (value : G2) : Bool :=
  ep_is_valid value

/-- Translation of `wrapper_g2_is_equal` (wrapper.c:690). -/
def wrapper_g2_is_equal (lhs rhs : G2) : Bool :=
  ep_cmp_eq lhs rhs

/-- Translation of `wrapper_g2_norm` (wrapper.c:638). -/
def wrapper_g2_norm (src : G2) : G2 :=
  ep_norm src

/-- Translation of `wrapper_g2_mul` (wrapper.c:627). -/
def wrapper_g2_mul (lhs : G2) (rhs : ℤ) : G2 :=
  ep_mul lhs rhs

/-- Model of the engine's `gt_exp`: exponentiation in the order-r target
group, i.e. scalar action on the additively-written model group. -/
def gt_exp (a : Gt) (k : ℤ) : Gt :=
  (k : ZMod orderNat) * a

/-- Translation of `wrapper_gt_mul` (wrapper.c:797): forwards to `gt_exp`. -/
def wrapper_gt_mul (lhs : Gt) (rhs : ℤ) : Gt :=
  gt_exp lhs rhs

/-- Model of the engine's pairing primitive `pc_map` (spec §6): the canonical
bilinear map of the model groups, sending the order-r subgroup components to
their product in the order-r target group. -/
def pc_map (g1 : G1) (g2 : G2) : Gt :=
  g1.x * g2.x

/-- Translation of `wrapper_pc_map` (wrapper.c:855): forwards to the engine's
`pc_map`. -/
def wrapper_pc_map (g1 : G1) (g2 : G2) : Gt :=
  pc_map g1 g2

/-- Modelled from the spec: the crate's G1 `read_bytes` error mapping (Rust
layer, not under `src/`): `wrapper_g1_read_bin` failure is a
`MalformedEncoding`, and a decoded point failing the subgroup validity check
is an `InvalidElement` (spec §4.2). -/
def g1ReadBytes (src : List Byte) : Except BlsError G1 :=
  match wrapper_g1_read_bin src with
  | none => .error .malformedEncoding
  | some p => if wrapper_g1_is_valid p then .ok p else .error .invalidElement

/-- Modelled from the spec: the crate's G2 `read_bytes` error mapping (Rust
layer, not under `src/`), as for G1. -/
def g2ReadBytes (src : List Byte) : Except BlsError G2 :=
  match wrapper_g2_read_bin src with
  | none => .error .malformedEncoding
  | some p => if wrapper_g2_is_valid p then .ok p else .error .invalidElement

/-- Translation of `wrapper_g1_init` (wrapper.c:290) at its compiled meaning:
the repository enforces `ALLOC == AUTO` (wrapper.c:5), under which `g1_null`,
`g1_new` and `g1_free` are empty macros — which is the only reason the body,
whose alloc calls name `bn->value` (an identifier not in scope) instead of the
parameter `g1`, compiles at all.  The function is therefore a no-op on the
heap of engine objects (modelled as a map from object ids to object states)
that returns `RLC_OK`. -/
def wrapper_g1_init (g1 : ℕ) (heap : ℕ → Bool) : RlcCode × (ℕ → Bool) :=
  (.ok, heap)

/-- Translation of `wrapper_g2_init` (wrapper.c:493); see `wrapper_g1_init`:
its alloc calls also name `bn->value` and expand to nothing. -/
def wrapper_g2_init (g2 : ℕ) (heap : ℕ → Bool) : RlcCode × (ℕ → Bool) :=
  (.ok, heap)

/-- Translation of `wrapper_gt_init` (wrapper.c:696); see `wrapper_g1_init`:
its alloc calls also name `bn->value` and expand to nothing. -/
def wrapper_gt_init (gt : ℕ) (heap : ℕ → Bool) : RlcCode × (ℕ → Bool) :=
  (.ok, heap)

/-- The canonical minimal-length big-endian encoding of the group order r
(32 bytes), used by the `from_bytes(encoding_of(r), reduce=false)` scenario. -/
def orderBytes : List Byte :=
  [115, 237, 167, 83, 41, 157, 125, 72, 51, 57, 216, 8, 9, 161, 216, 5,
   83, 189, 164, 2, 255, 254, 91, 254, 255, 255, 255, 255, 0, 0, 0, 1]

/-- A well-formed G1 encoding (model length 49) of the on-curve point with
subgroup component 1 and cofactor component 1, which lies outside the order-r
subgroup. -/
def g1NonSubgroupBytes : List Byte :=
  List.replicate 48 (0 : Byte) ++ [1]

/-- A well-formed G2 encoding (model length 97) of an on-curve point outside
the order-r subgroup. -/
def g2NonSubgroupBytes : List Byte :=
  List.replicate 96 (0 : Byte) ++ [1]

/-- Square-and-multiply modular exponentiation with structural fuel, used to
evaluate the Lucas primality certificate of the group order inside the
kernel. -/
def powModFuel (m : ℕ) : ℕ → ℕ → ℕ → ℕ
  | 0, _, _ => 1 % m
  | fuel + 1, a, e =>
    if e = 0 then 1 % m
    else
      let t := powModFuel m fuel (a * a % m) (e / 2)
      if e % 2 = 1 then a * t % m else t

theorem powModFuel_lt (m : ℕ) (hm : 0 < m) : ∀ fuel a e, powModFuel m fuel a e < m := by
  intro fuel
  induction fuel with
  | zero => intro a e; simpa [powModFuel] using Nat.mod_lt 1 hm
  | succ f ih =>
    intro a e
    by_cases h0 : e = 0
    · simpa [powModFuel, h0] using Nat.mod_lt 1 hm
    · by_cases h1 : e % 2 = 1
      · simpa [powModFuel, h0, h1] using Nat.mod_lt _ hm
      · simpa [powModFuel, h0, h1] using ih (a * a % m) (e / 2)

theorem powModFuel_eq (m : ℕ) : ∀ fuel a e, e < 2 ^ fuel → powModFuel m fuel a e = a ^ e % m := by
  intro fuel
  induction fuel with
  | zero =>
    intro a e he
    have h0 : e = 0 := Nat.lt_one_iff.mp (by simpa using he)
    subst h0
    simp [powModFuel]
  | succ f ih =>
    intro a e he
    by_cases h0 : e = 0
    · subst h0; simp [powModFuel]
    · have hdiv : e / 2 < 2 ^ f := by
        have h2 : e < 2 ^ f * 2 := by
          calc e < 2 ^ (f + 1) := he
            _ = 2 ^ f * 2 := pow_succ 2 f
        omega
      have hrec : powModFuel m f (a * a % m) (e / 2) = (a * a) ^ (e / 2) % m := by
        rw [ih _ _ hdiv, ← Nat.pow_mod]
      by_cases h1 : e % 2 = 1
      · have hsplit : 2 * (e / 2) + 1 = e := by omega
        simp only [powModFuel, if_neg h0, if_pos h1]
        rw [hrec]
        calc a * ((a * a) ^ (e / 2) % m) % m
            = a * (a * a) ^ (e / 2) % m := by
              exact Nat.ModEq.mul_left a (Nat.mod_modEq _ m)
          _ = a ^ e % m := by
              congr 1
              conv_rhs => rw [← hsplit]
              rw [pow_succ, pow_mul, pow_two]
              exact mul_comm _ _
      · have hsplit : 2 * (e / 2) = e := by omega
        simp only [powModFuel, if_neg h0, if_neg h1]
        rw [hrec]
        congr 1
        conv_rhs => rw [← hsplit]
        rw [pow_mul, pow_two]

theorem orderNat_pos : 0 < orderNat := by decide

theorem orderNat_sub_one_lt : orderNat - 1 < 2 ^ 256 := by norm_num [orderNat]

theorem zmod_pow_cast (p fuel a e : ℕ) (he : e < 2 ^ fuel) :
    ((a : ℕ) : ZMod p) ^ e = ((powModFuel p fuel a e : ℕ) : ZMod p) := by
  rw [powModFuel_eq p fuel a e he, ZMod.natCast_mod, Nat.cast_pow]

theorem pow_eq_one_iff_powModFuel (p fuel a e : ℕ) (hp : 1 < p) (he : e < 2 ^ fuel) :
    (((a : ℕ) : ZMod p) ^ e = 1 ↔ powModFuel p fuel a e = 1) := by
  rw [zmod_pow_cast p fuel a e he]
  constructor
  · intro h
    have hX : powModFuel p fuel a e < p := powModFuel_lt p (by omega) fuel a e
    have h2 : ((powModFuel p fuel a e : ℕ) : ZMod p) = ((1 : ℕ) : ZMod p) := by
      rw [h, Nat.cast_one]
    have h3 := (ZMod.natCast_eq_natCast_iff' _ _ _).mp h2
    rw [Nat.mod_eq_of_lt hX, Nat.mod_eq_of_lt hp] at h3
    exact h3
  · intro h
    rw [h, Nat.cast_one]

theorem pratt_step (p fuel g e : ℕ) (hp : 1 < p) (he : e < 2 ^ fuel)
    (hne : powModFuel p fuel g e ≠ 1) : ((g : ℕ) : ZMod p) ^ e ≠ 1 :=
  fun hcontra => hne ((pow_eq_one_iff_powModFuel p fuel g e hp he).mp hcontra)

/-- Lucas primality certificate for the Pratt-tree prime 110573 with witness 3. -/
theorem prime_110573 : Nat.Prime 110573 := by
  refine lucas_primality 110573 ((3 : ℕ) : ZMod 110573) ?_ ?_
  · exact (pow_eq_one_iff_powModFuel 110573 64 3 (110573 - 1) (by norm_num)
      (by norm_num)).mpr (by decide)
  · intro q hq hdvd
    have hfac : 110573 - 1 = 2 ^ 2 * (7 * (11 * (359))) := by norm_num
    rw [hfac] at hdvd
    rcases (Nat.Prime.dvd_mul hq).mp hdvd with h | hdvd
    · have hqe : q = 2 := (Nat.prime_dvd_prime_iff_eq hq (by norm_num)).mp (hq.dvd_of_dvd_pow h)
      subst hqe
      exact pratt_step 110573 64 3 _ (by norm_num) (by norm_num) (by decide)
    rcases (Nat.Prime.dvd_mul hq).mp hdvd with h | hdvd
    · have hqe : q = 7 := (Nat.prime_dvd_prime_iff_eq hq (by norm_num)).mp h
      subst hqe
      exact pratt_step 110573 64 3 _ (by norm_num) (by norm_num) (by decide)
    rcases (Nat.Prime.dvd_mul hq).mp hdvd with h | hdvd
    · have hqe : q = 11 := (Nat.prime_dvd_prime_iff_eq hq (by norm_num)).mp h
      subst hqe
      exact pratt_step 110573 64 3 _ (by norm_num) (by norm_num) (by decide)
    · have hqe : q = 359 := (Nat.prime_dvd_prime_iff_eq hq (by norm_num)).mp hdvd
      subst hqe
      exact pratt_step 110573 64 3 _ (by norm_num) (by norm_num) (by decide)

/-- Lucas primality certificate for the Pratt-tree prime 609743 with witness 5. -/
theorem prime_609743 : Nat.Prime 609743 := by
  refine lucas_primality 609743 ((5 : ℕ) : ZMod 609743) ?_ ?_
  · exact (pow_eq_one_iff_powModFuel 609743 64 5 (609743 - 1) (by norm_num)
      (by norm_num)).mpr (by decide)
  · intro q hq hdvd
    have hfac : 609743 - 1 = 2 * (7 * (97 * (449))) := by norm_num
    rw [hfac] at hdvd
    rcases (Nat.Prime.dvd_mul hq).mp hdvd with h | hdvd
    · have hqe : q = 2 := (Nat.prime_dvd_prime_iff_eq hq (by norm_num)).mp h
      subst hqe
      exact pratt_step 609743 64 5 _ (by norm_num) (by norm_num) (by decide)
    rcases (Nat.Prime.dvd_mul hq).mp hdvd with h | hdvd
    · have hqe : q = 7 := (Nat.prime_dvd_prime_iff_eq hq (by norm_num)).mp h
      subst hqe
      exact pratt_step 609743 64 5 _ (by norm_num) (by norm_num) (by decide)
    rcases (Nat.Prime.dvd_mul hq).mp hdvd with h | hdvd
    · have hqe : q = 97 := (Nat.prime_dvd_prime_iff_eq hq (by norm_num)).mp h
      subst hqe
      exact pratt_step 609743 64 5 _ (by norm_num) (by norm_num) (by decide)
    · have hqe : q = 449 := (Nat.prime_dvd_prime_iff_eq hq (by norm_num)).mp hdvd
      subst hqe
      exact pratt_step 609743 64 5 _ (by norm_num) (by norm_num) (by decide)

/-- Lucas primality certificate for the Pratt-tree prime 859267 with witness 2. -/
theorem prime_859267 : Nat.Prime 859267 := by
  refine lucas_primality 859267 ((2 : ℕ) : ZMod 859267) ?_ ?_
  · exact (pow_eq_one_iff_powModFuel 859267 64 2 (859267 - 1) (by norm_num)
      (by norm_num)).mpr (by decide)
  · intro q hq hdvd
    have hfac : 859267 - 1 = 2 * (3 ^ 2 * (47737)) := by norm_num
    rw [hfac] at hdvd
    rcases (Nat.Prime.dvd_mul hq).mp hdvd with h | hdvd
    · have hqe : q = 2 := (Nat.prime_dvd_prime_iff_eq hq (by norm_num)).mp h
      subst hqe
      exact pratt_step 859267 64 2 _ (by norm_num) (by norm_num) (by decide)
    rcases (Nat.Prime.dvd_mul hq).mp hdvd with h | hdvd
    · have hqe : q = 3 := (Nat.prime_dvd_prime_iff_eq hq (by norm_num)).mp (hq.dvd_of_dvd_pow h)
      subst hqe
      exact pratt_step 859267 64 2 _ (by norm_num) (by norm_num) (by decide)
    · have hqe : q = 47737 := (Nat.prime_dvd_prime_iff_eq hq (by norm_num)).mp hdvd
      subst hqe
      exact pratt_step 859267 64 2 _ (by norm_num) (by norm_num) (by decide)

/-- Lucas primality certificate for the Pratt-tree prime 906349 with witness 2. -/
theorem prime_906349 : Nat.Prime 906349 := by
  refine lucas_primality 906349 ((2 : ℕ) : ZMod 906349) ?_ ?_
  · exact (pow_eq_one_iff_powModFuel 906349 64 2 (906349 - 1) (by norm_num)
      (by norm_num)).mpr (by decide)
  · intro q hq hdvd
    have hfac : 906349 - 1 = 2 ^ 2 * (3 * (47 * (1607))) := by norm_num
    rw [hfac] at hdvd
    rcases (Nat.Prime.dvd_mul hq).mp hdvd with h | hdvd
    · have hqe : q = 2 := (Nat.prime_dvd_prime_iff_eq hq (by norm_num)).mp (hq.dvd_of_dvd_pow h)
      subst hqe
      exact pratt_step 906349 64 2 _ (by norm_num) (by norm_num) (by decide)
    rcases (Nat.Prime.dvd_mul hq).mp hdvd with h | hdvd
    · have hqe : q = 3 := (Nat.prime_dvd_prime_iff_eq hq (by norm_num)).mp h
      subst hqe
      exact pratt_step 906349 64 2 _ (by norm_num) (by norm_num) (by decide)
    rcases (Nat.Prime.dvd_mul hq).mp hdvd with h | hdvd
    · have hqe : q = 47 := (Nat.prime_dvd_prime_iff_eq hq (by norm_num)).mp h
      subst hqe
      exact pratt_step 906349 64 2 _ (by norm_num) (by norm_num) (by decide)
    · have hqe : q = 1607 := (Nat.prime_dvd_prime_iff_eq hq (by norm_num)).mp hdvd
      subst hqe
      exact pratt_step 906349 64 2 _ (by norm_num) (by norm_num) (by decide)

/-- Lucas primality certificate for the Pratt-tree prime 2508409 with witness 11. -/
theorem prime_2508409 : Nat.Prime 2508409 := by
  refine lucas_primality 2508409 ((11 : ℕ) : ZMod 2508409) ?_ ?_
  · exact (pow_eq_one_iff_powModFuel 2508409 64 11 (2508409 - 1) (by norm_num)
      (by norm_num)).mpr (by decide)
  · intro q hq hdvd
    have hfac : 2508409 - 1 = 2 ^ 3 * (3 ^ 4 * (7 ^ 2 * (79))) := by norm_num
    rw [hfac] at hdvd
    rcases (Nat.Prime.dvd_mul hq).mp hdvd with h | hdvd
    · have hqe : q = 2 := (Nat.prime_dvd_prime_iff_eq hq (by norm_num)).mp (hq.dvd_of_dvd_pow h)
      subst hqe
      exact pratt_step 2508409 64 11 _ (by norm_num) (by norm_num) (by decide)
    rcases (Nat.Prime.dvd_mul hq).mp hdvd with h | hdvd
    · have hqe : q = 3 := (Nat.prime_dvd_prime_iff_eq hq (by norm_num)).mp (hq.dvd_of_dvd_pow h)
      subst hqe
      exact pratt_step 2508409 64 11 _ (by norm_num) (by norm_num) (by decide)
    rcases (Nat.Prime.dvd_mul hq).mp hdvd with h | hdvd
    · have hqe : q = 7 := (Nat.prime_dvd_prime_iff_eq hq (by norm_num)).mp (hq.dvd_of_dvd_pow h)
      subst hqe
      exact pratt_step 2508409 64 11 _ (by norm_num) (by norm_num) (by decide)
    · have hqe : q = 79 := (Nat.prime_dvd_prime_iff_eq hq (by norm_num)).mp hdvd
      subst hqe
      exact pratt_step 2508409 64 11 _ (by norm_num) (by norm_num) (by decide)

/-- Lucas primality certificate for the Pratt-tree prime 2529403 with witness 2. -/
theorem prime_2529403 : Nat.Prime 2529403 := by
  refine lucas_primality 2529403 ((2 : ℕ) : ZMod 2529403) ?_ ?_
  · exact (pow_eq_one_iff_powModFuel 2529403 64 2 (2529403 - 1) (by norm_num)
      (by norm_num)).mpr (by decide)
  · intro q hq hdvd
    have hfac : 2529403 - 1 = 2 * (3 * (23 * (18329))) := by norm_num
    rw [hfac] at hdvd
    rcases (Nat.Prime.dvd_mul hq).mp hdvd with h | hdvd
    · have hqe : q = 2 := (Nat.prime_dvd_prime_iff_eq hq (by norm_num)).mp h
      subst hqe
      exact pratt_step 2529403 64 2 _ (by norm_num) (by norm_num) (by decide)
    rcases (Nat.Prime.dvd_mul hq).mp hdvd with h | hdvd
    · have hqe : q = 3 := (Nat.prime_dvd_prime_iff_eq hq (by norm_num)).mp h
      subst hqe
      exact pratt_step 2529403 64 2 _ (by norm_num) (by norm_num) (by decide)
    rcases (Nat.Prime.dvd_mul hq).mp hdvd with h | hdvd
    · have hqe : q = 23 := (Nat.prime_dvd_prime_iff_eq hq (by norm_num)).mp h
      subst hqe
      exact pratt_step 2529403 64 2 _ (by norm_num) (by norm_num) (by decide)
    · have hqe : q = 18329 := (Nat.prime_dvd_prime_iff_eq hq (by norm_num)).mp hdvd
      subst hqe
      exact pratt_step 2529403 64 2 _ (by norm_num) (by norm_num) (by decide)

/-- Lucas primality certificate for the Pratt-tree prime 2653753 with witness 5. -/
theorem prime_2653753 : Nat.Prime 2653753 := by
  refine lucas_primality 2653753 ((5 : ℕ) : ZMod 2653753) ?_ ?_
  · exact (pow_eq_one_iff_powModFuel 2653753 64 5 (2653753 - 1) (by norm_num)
      (by norm_num)).mpr (by decide)
  · intro q hq hdvd
    have hfac : 2653753 - 1 = 2 ^ 3 * (3 * (110573)) := by norm_num
    rw [hfac] at hdvd
    rcases (Nat.Prime.dvd_mul hq).mp hdvd with h | hdvd
    · have hqe : q = 2 := (Nat.prime_dvd_prime_iff_eq hq (by norm_num)).mp (hq.dvd_of_dvd_pow h)
      subst hqe
      exact pratt_step 2653753 64 5 _ (by norm_num) (by norm_num) (by decide)
    rcases (Nat.Prime.dvd_mul hq).mp hdvd with h | hdvd
    · have hqe : q = 3 := (Nat.prime_dvd_prime_iff_eq hq (by norm_num)).mp h
      subst hqe
      exact pratt_step 2653753 64 5 _ (by norm_num) (by norm_num) (by decide)
    · have hqe : q = 110573 := (Nat.prime_dvd_prime_iff_eq hq prime_110573).mp hdvd
      subst hqe
      exact pratt_step 2653753 64 5 _ (by norm_num) (by norm_num) (by decide)

/-- Lucas primality certificate for the Pratt-tree prime 52437899 with witness 2. -/
theorem prime_52437899 : Nat.Prime 52437899 := by
  refine lucas_primality 52437899 ((2 : ℕ) : ZMod 52437899) ?_ ?_
  · exact (pow_eq_one_iff_powModFuel 52437899 64 2 (52437899 - 1) (by norm_num)
      (by norm_num)).mpr (by decide)
  · intro q hq hdvd
    have hfac : 52437899 - 1 = 2 * (43 * (609743)) := by norm_num
    rw [hfac] at hdvd
    rcases (Nat.Prime.dvd_mul hq).mp hdvd with h | hdvd
    · have hqe : q = 2 := (Nat.prime_dvd_prime_iff_eq hq (by norm_num)).mp h
      subst hqe
      exact pratt_step 52437899 64 2 _ (by norm_num) (by norm_num) (by decide)
    rcases (Nat.Prime.dvd_mul hq).mp hdvd with h | hdvd
    · have hqe : q = 43 := (Nat.prime_dvd_prime_iff_eq hq (by norm_num)).mp h
      subst hqe
      exact pratt_step 52437899 64 2 _ (by norm_num) (by norm_num) (by decide)
    · have hqe : q = 609743 := (Nat.prime_dvd_prime_iff_eq hq prime_609743).mp hdvd
      subst hqe
      exact pratt_step 52437899 64 2 _ (by norm_num) (by norm_num) (by decide)

/-- Lucas primality certificate for the Pratt-tree prime 63690073 with witness 7. -/
theorem prime_63690073 : Nat.Prime 63690073 := by
  refine lucas_primality 63690073 ((7 : ℕ) : ZMod 63690073) ?_ ?_
  · exact (pow_eq_one_iff_powModFuel 63690073 64 7 (63690073 - 1) (by norm_num)
      (by norm_num)).mpr (by decide)
  · intro q hq hdvd
    have hfac : 63690073 - 1 = 2 ^ 3 * (3 * (2653753)) := by norm_num
    rw [hfac] at hdvd
    rcases (Nat.Prime.dvd_mul hq).mp hdvd with h | hdvd
    · have hqe : q = 2 := (Nat.prime_dvd_prime_iff_eq hq (by norm_num)).mp (hq.dvd_of_dvd_pow h)
      subst hqe
      exact pratt_step 63690073 64 7 _ (by norm_num) (by norm_num) (by decide)
    rcases (Nat.Prime.dvd_mul hq).mp hdvd with h | hdvd
    · have hqe : q = 3 := (Nat.prime_dvd_prime_iff_eq hq (by norm_num)).mp h
      subst hqe
      exact pratt_step 63690073 64 7 _ (by norm_num) (by norm_num) (by decide)
    · have hqe : q = 2653753 := (Nat.prime_dvd_prime_iff_eq hq prime_2653753).mp hdvd
      subst hqe
      exact pratt_step 63690073 64 7 _ (by norm_num) (by norm_num) (by decide)

/-- Lucas primality certificate for the Pratt-tree prime 254760293 with witness 2. -/
theorem prime_254760293 : Nat.Prime 254760293 := by
  refine lucas_primality 254760293 ((2 : ℕ) : ZMod 254760293) ?_ ?_
  · exact (pow_eq_one_iff_powModFuel 254760293 64 2 (254760293 - 1) (by norm_num)
      (by norm_num)).mpr (by decide)
  · intro q hq hdvd
    have hfac : 254760293 - 1 = 2 ^ 2 * (63690073) := by norm_num
    rw [hfac] at hdvd
    rcases (Nat.Prime.dvd_mul hq).mp hdvd with h | hdvd
    · have hqe : q = 2 := (Nat.prime_dvd_prime_iff_eq hq (by norm_num)).mp (hq.dvd_of_dvd_pow h)
      subst hqe
      exact pratt_step 254760293 64 2 _ (by norm_num) (by norm_num) (by decide)
    · have hqe : q = 63690073 := (Nat.prime_dvd_prime_iff_eq hq prime_63690073).mp hdvd
      subst hqe
      exact pratt_step 254760293 64 2 _ (by norm_num) (by norm_num) (by decide)

theorem orderNat_sub_one_factors :
    ∀ q : ℕ, q.Prime → q ∣ orderNat - 1 →
      q = 2 ∨ q = 3 ∨ q = 11 ∨ q = 19 ∨ q = 10177 ∨ q = 125527 ∨ q = 859267 ∨
        q = 906349 ∨ q = 2508409 ∨ q = 2529403 ∨ q = 52437899 ∨ q = 254760293 := by
  intro q hq hdvd
  have hfac : orderNat - 1 = 2 ^ 32 * (3 * (11 * (19 * (10177 * (125527 * (859267 * (906349 ^ 2 * (2508409 * (2529403 * (52437899 * (254760293 ^ 2))))))))))) := by
    norm_num [orderNat]
  rw [hfac] at hdvd
  rcases (Nat.Prime.dvd_mul hq).mp hdvd with h | hdvd
  · exact Or.inl ((Nat.prime_dvd_prime_iff_eq hq (by norm_num)).mp (hq.dvd_of_dvd_pow h))
  rcases (Nat.Prime.dvd_mul hq).mp hdvd with h | hdvd
  · exact Or.inr (Or.inl ((Nat.prime_dvd_prime_iff_eq hq (by norm_num)).mp h))
  rcases (Nat.Prime.dvd_mul hq).mp hdvd with h | hdvd
  · exact Or.inr (Or.inr (Or.inl ((Nat.prime_dvd_prime_iff_eq hq (by norm_num)).mp h)))
  rcases (Nat.Prime.dvd_mul hq).mp hdvd with h | hdvd
  · exact Or.inr (Or.inr (Or.inr (Or.inl ((Nat.prime_dvd_prime_iff_eq hq (by norm_num)).mp h))))
  rcases (Nat.Prime.dvd_mul hq).mp hdvd with h | hdvd
  · exact Or.inr (Or.inr (Or.inr (Or.inr (Or.inl ((Nat.prime_dvd_prime_iff_eq hq (by norm_num)).mp h)))))
  rcases (Nat.Prime.dvd_mul hq).mp hdvd with h | hdvd
  · exact Or.inr (Or.inr (Or.inr (Or.inr (Or.inr (Or.inl ((Nat.prime_dvd_prime_iff_eq hq (by norm_num)).mp h))))))
  rcases (Nat.Prime.dvd_mul hq).mp hdvd with h | hdvd
  · exact Or.inr (Or.inr (Or.inr (Or.inr (Or.inr (Or.inr (Or.inl ((Nat.prime_dvd_prime_iff_eq hq prime_859267).mp h)))))))
  rcases (Nat.Prime.dvd_mul hq).mp hdvd with h | hdvd
  · exact Or.inr (Or.inr (Or.inr (Or.inr (Or.inr (Or.inr (Or.inr (Or.inl ((Nat.prime_dvd_prime_iff_eq hq prime_906349).mp (hq.dvd_of_dvd_pow h)))))))))
  rcases (Nat.Prime.dvd_mul hq).mp hdvd with h | hdvd
  · exact Or.inr (Or.inr (Or.inr (Or.inr (Or.inr (Or.inr (Or.inr (Or.inr (Or.inl ((Nat.prime_dvd_prime_iff_eq hq prime_2508409).mp h)))))))))
  rcases (Nat.Prime.dvd_mul hq).mp hdvd with h | hdvd
  · exact Or.inr (Or.inr (Or.inr (Or.inr (Or.inr (Or.inr (Or.inr (Or.inr (Or.inr (Or.inl ((Nat.prime_dvd_prime_iff_eq hq prime_2529403).mp h))))))))))
  rcases (Nat.Prime.dvd_mul hq).mp hdvd with h | hdvd
  · exact Or.inr (Or.inr (Or.inr (Or.inr (Or.inr (Or.inr (Or.inr (Or.inr (Or.inr (Or.inr (Or.inl ((Nat.prime_dvd_prime_iff_eq hq prime_52437899).mp h)))))))))))
  · exact Or.inr (Or.inr (Or.inr (Or.inr (Or.inr (Or.inr (Or.inr (Or.inr (Or.inr (Or.inr (Or.inr ((Nat.prime_dvd_prime_iff_eq hq prime_254760293).mp (hq.dvd_of_dvd_pow hdvd))))))))))))

theorem orderNat_prime : Nat.Prime orderNat := by
  refine lucas_primality orderNat ((7 : ℕ) : ZMod orderNat) ?_ ?_
  · exact (pow_eq_one_iff_powModFuel orderNat 256 7 (orderNat - 1) (by decide)
      orderNat_sub_one_lt).mpr (by decide)
  · intro q hq hdvd
    have hbound : ∀ k : ℕ, (orderNat - 1) / k < 2 ^ 256 :=
      fun k => lt_of_le_of_lt (Nat.div_le_self _ _) orderNat_sub_one_lt
    rcases orderNat_sub_one_factors q hq hdvd with
      rfl | rfl | rfl | rfl | rfl | rfl | rfl | rfl | rfl | rfl | rfl | rfl
    · exact pratt_step orderNat 256 7 _ (by decide) (hbound 2) (by decide)
    · exact pratt_step orderNat 256 7 _ (by decide) (hbound 3) (by decide)
    · exact pratt_step orderNat 256 7 _ (by decide) (hbound 11) (by decide)
    · exact pratt_step orderNat 256 7 _ (by decide) (hbound 19) (by decide)
    · exact pratt_step orderNat 256 7 _ (by decide) (hbound 10177) (by decide)
    · exact pratt_step orderNat 256 7 _ (by decide) (hbound 125527) (by decide)
    · exact pratt_step orderNat 256 7 _ (by decide) (hbound 859267) (by decide)
    · exact pratt_step orderNat 256 7 _ (by decide) (hbound 906349) (by decide)
    · exact pratt_step orderNat 256 7 _ (by decide) (hbound 2508409) (by decide)
    · exact pratt_step orderNat 256 7 _ (by decide) (hbound 2529403) (by decide)
    · exact pratt_step orderNat 256 7 _ (by decide) (hbound 52437899) (by decide)
    · exact pratt_step orderNat 256 7 _ (by decide) (hbound 254760293) (by decide)

theorem order_pos : (0 : ℤ) < order := by decide

theorem order_ne_zero : order ≠ 0 := ne_of_gt order_pos

theorem one_lt_order : (1 : ℤ) < order := by decide

theorem wrapper_bn_add_eq (a b : ℤ) : wrapper_bn_add a b = (a + b) % order := rfl

theorem wrapper_bn_double_eq (a : ℤ) : wrapper_bn_double a = 2 * a % order := rfl

theorem wrapper_bn_neg_eq (a : ℤ) : wrapper_bn_neg a = (order - a) % order := rfl

theorem wrapper_bn_sub_eq (a b : ℤ) : wrapper_bn_sub a b = (a - b) % order := by
  simp only [wrapper_bn_sub, bn_mod, bn_sub, bn_add]
  rw [if_neg (not_lt.mpr (Int.emod_nonneg _ order_ne_zero))]

theorem wrapper_bn_mul_eq {a b : ℤ} (ha0 : 0 ≤ a) (hb0 : 0 ≤ b) :
    wrapper_bn_mul a b = a * b % order := by
  simp only [wrapper_bn_mul, bn_mul, bn_mod, bn_add]
  rw [if_neg (not_lt.mpr (mul_nonneg ha0 hb0))]

theorem bn_mod_inv_canonical {a : ℤ} (h0 : 0 < a) (hlt : a < order) :
    bn_mod_inv a order = some (Nat.gcdA a.toNat orderNat % order) ∧
    0 ≤ Nat.gcdA a.toNat orderNat % order ∧ Nat.gcdA a.toNat orderNat % order < order ∧
    a * (Nat.gcdA a.toNat orderNat % order) % order = 1 := by
  have htoNat : (a.toNat : ℤ) = a := Int.toNat_of_nonneg h0.le
  have haN0 : 0 < a.toNat := by omega
  have hlt' : a < (orderNat : ℤ) := hlt
  have haNlt : a.toNat < orderNat := by omega
  have hgcd : Nat.gcd a.toNat orderNat = 1 := by
    have hcop : Nat.Coprime orderNat a.toNat :=
      (Nat.Prime.coprime_iff_not_dvd orderNat_prime).mpr (fun hdvd => by
        have := Nat.le_of_dvd haN0 hdvd
        omega)
    exact Nat.coprime_comm.mp hcop
  have htn : order.toNat = orderNat := rfl
  refine ⟨?_, Int.emod_nonneg _ order_ne_zero, Int.emod_lt_of_pos _ order_pos, ?_⟩
  · show (if Nat.gcd a.toNat order.toNat = 1 then
        some (Nat.gcdA a.toNat order.toNat % order) else none) =
      some (Nat.gcdA a.toNat orderNat % order)
    rw [htn, if_pos hgcd]
  · have hbez := Nat.gcd_eq_gcd_ab a.toNat orderNat
    rw [hgcd] at hbez
    have hone : (1 : ℤ) = a * Nat.gcdA a.toNat orderNat + order * Nat.gcdB a.toNat orderNat := by
      rw [Nat.cast_one] at hbez
      rw [htoNat] at hbez
      exact hbez
    have hmodeq1 : a * (Nat.gcdA a.toNat orderNat % order) % order =
        a * Nat.gcdA a.toNat orderNat % order := by
      exact Int.ModEq.mul_left a (Int.emod_emod_of_dvd _ dvd_rfl)
    have hmodeq2 : a * Nat.gcdA a.toNat orderNat % order = 1 % order := by
      exact Int.modEq_iff_dvd.mpr ⟨Nat.gcdB a.toNat orderNat, by linarith⟩
    rw [hmodeq1, hmodeq2]
    exact Int.emod_eq_of_lt (by decide) one_lt_order

theorem wrapper_bn_inv_eq {a : ℤ} (h0 : 0 < a) (hlt : a < order) :
    wrapper_bn_inv a = (.ok, Nat.gcdA a.toNat orderNat % order) := by
  obtain ⟨hsome, hv0, _, _⟩ := bn_mod_inv_canonical h0 hlt
  simp [wrapper_bn_inv, ne_of_gt h0, hsome, not_lt.mpr hv0]

theorem intCast_emod_order (x : ℤ) :
    ((x % order : ℤ) : ZMod orderNat) = (x : ZMod orderNat) := by
  apply (ZMod.intCast_eq_intCast_iff' (x % order) x orderNat).mpr
  show x % order % order = x % order
  exact Int.emod_emod_of_dvd x dvd_rfl

theorem wrapper_bn_mul_cast (a b : ℤ) :
    ((wrapper_bn_mul a b : ℤ) : ZMod orderNat) = ((a * b : ℤ) : ZMod orderNat) := by
  simp only [wrapper_bn_mul, bn_mul, bn_add]
  by_cases h : a * b < 0
  · rw [if_pos h]
    push_cast
    simp [order, ZMod.natCast_self]
  · rw [if_neg h]
    exact intCast_emod_order (a * b)

/-- C1: a well-formed encoding whose decoded point is on the curve but fails
the subgroup validity check makes `read_bytes` fail with `InvalidElement`
instead of returning the point, for G1 and for G2 alike; consequently every
point `read_bytes` accepts passes the subgroup validity check. -/
theorem c1_read_bin_subgroup_check :
    (∀ (src : List Byte) (p : G1), wrapper_g1_read_bin src = some p →
      wrapper_g1_is_valid p = false → g1ReadBytes src = .error .invalidElement) ∧
    (∀ (src : List Byte) (p : G1), g1ReadBytes src = .ok p → wrapper_g1_is_valid p = true) ∧
    (∀ (src : List Byte) (q : G2), wrapper_g2_read_bin src = some q →
      wrapper_g2_is_valid q = false → g2ReadBytes src = .error .invalidElement) ∧
    (∀ (src : List Byte) (q : G2), g2ReadBytes src = .ok q → wrapper_g2_is_valid q = true) := by
  refine ⟨?_, ?_, ?_, ?_⟩
  · intro src p hread hval
    simp [g1ReadBytes, hread, hval]
  · intro src p hok
    unfold g1ReadBytes at hok
    cases hr : wrapper_g1_read_bin src with
    | none => rw [hr] at hok; simp at hok
    | some q =>
      rw [hr] at hok
      by_cases hv : wrapper_g1_is_valid q = true
      · simp only [hv, if_pos] at hok
        cases hok
        exact hv
      · simp [hv] at hok
  · intro src p hread hval
    simp [g2ReadBytes, hread, hval]
  · intro src p hok
    unfold g2ReadBytes at hok
    cases hr : wrapper_g2_read_bin src with
    | none => rw [hr] at hok; simp at hok
    | some q =>
      rw [hr] at hok
      by_cases hv : wrapper_g2_is_valid q = true
      · simp only [hv, if_pos] at hok
        cases hok
        exact hv
      · simp [hv] at hok

theorem c1_witness :
    g1ReadBytes g1NonSubgroupBytes = .error .invalidElement ∧
    g2ReadBytes g2NonSubgroupBytes = .error .invalidElement :=
  ⟨c1_read_bin_subgroup_check.1 g1NonSubgroupBytes ⟨1, 1, 1⟩ (by decide) (by decide),
   c1_read_bin_subgroup_check.2.2.1 g2NonSubgroupBytes ⟨1, 1, 1⟩ (by decide) (by decide)⟩

/-- C2: with `reduce = false`, the scalar decoder fails with `OutOfRange`
exactly when the parsed big-endian integer is ≥ r and otherwise returns that
integer; the single byte 0x00 decodes to the scalar 0 and the canonical
encoding of r itself fails. -/
theorem c2_from_bytes_strict :
    (∀ src : List Byte,
      (scalarFromBytes src false = .error .outOfRange ↔
        order ≤ wrapper_bn_read_bin src false) ∧
      (wrapper_bn_read_bin src false < order →
        scalarFromBytes src false = .ok (wrapper_bn_read_bin src false))) ∧
    scalarFromBytes [(0 : Byte)] false = .ok 0 ∧
    scalarFromBytes orderBytes false = .error .outOfRange := by
  refine ⟨?_, rfl, rfl⟩
  intro src
  constructor
  · constructor
    · intro h
      by_cases hle : order ≤ wrapper_bn_read_bin src false
      · exact hle
      · exfalso
        simp [scalarFromBytes, hle] at h
    · intro hle
      simp [scalarFromBytes, hle]
  · intro hlt
    simp [scalarFromBytes, not_le.mpr hlt]

theorem c2_witness :
    scalarFromBytes [(5 : Byte)] false = .ok (wrapper_bn_read_bin [(5 : Byte)] false) :=
  (c2_from_bytes_strict.1 [(5 : Byte)]).2 (by decide)

/-- C3: on canonical inputs `0 ≤ a, b < r`, every scalar-producing Zr
operation of the wrapper (add, sub, double, negate, mul, and invert on
nonzero input) yields a value in the canonical range `[0, r)`. -/
theorem c3_zr_canonical_range {a b : ℤ} (ha0 : 0 ≤ a) (ha : a < order) (hb0 : 0 ≤ b)
    (hb : b < order) :
    (0 ≤ wrapper_bn_add a b ∧ wrapper_bn_add a b < order) ∧
    (0 ≤ wrapper_bn_sub a b ∧ wrapper_bn_sub a b < order) ∧
    (0 ≤ wrapper_bn_double a ∧ wrapper_bn_double a < order) ∧
    (0 ≤ wrapper_bn_neg a ∧ wrapper_bn_neg a < order) ∧
    (0 ≤ wrapper_bn_mul a b ∧ wrapper_bn_mul a b < order) ∧
    (a ≠ 0 → (wrapper_bn_inv a).1 = .ok ∧
      0 ≤ (wrapper_bn_inv a).2 ∧ (wrapper_bn_inv a).2 < order) := by
  refine ⟨?_, ?_, ?_, ?_, ?_, ?_⟩
  · rw [wrapper_bn_add_eq]
    exact ⟨Int.emod_nonneg _ order_ne_zero, Int.emod_lt_of_pos _ order_pos⟩
  · rw [wrapper_bn_sub_eq]
    exact ⟨Int.emod_nonneg _ order_ne_zero, Int.emod_lt_of_pos _ order_pos⟩
  · rw [wrapper_bn_double_eq]
    exact ⟨Int.emod_nonneg _ order_ne_zero, Int.emod_lt_of_pos _ order_pos⟩
  · rw [wrapper_bn_neg_eq]
    exact ⟨Int.emod_nonneg _ order_ne_zero, Int.emod_lt_of_pos _ order_pos⟩
  · rw [wrapper_bn_mul_eq ha0 hb0]
    exact ⟨Int.emod_nonneg _ order_ne_zero, Int.emod_lt_of_pos _ order_pos⟩
  · intro hne
    have h0 : 0 < a := lt_of_le_of_ne ha0 (Ne.symm hne)
    obtain ⟨_, hv0, hvlt, _⟩ := bn_mod_inv_canonical h0 ha
    rw [wrapper_bn_inv_eq h0 ha]
    exact ⟨rfl, hv0, hvlt⟩

theorem c3_witness :
    (0 ≤ wrapper_bn_add 2 3 ∧ wrapper_bn_add 2 3 < order) ∧
    (0 ≤ wrapper_bn_sub 2 3 ∧ wrapper_bn_sub 2 3 < order) ∧
    (0 ≤ wrapper_bn_double 2 ∧ wrapper_bn_double 2 < order) ∧
    (0 ≤ wrapper_bn_neg 2 ∧ wrapper_bn_neg 2 < order) ∧
    (0 ≤ wrapper_bn_mul 2 3 ∧ wrapper_bn_mul 2 3 < order) ∧
    ((wrapper_bn_inv 2).1 = .ok ∧
      0 ≤ (wrapper_bn_inv 2).2 ∧ (wrapper_bn_inv 2).2 < order) := by
  obtain ⟨h1, h2, h3, h4, h5, h6⟩ :=
    @c3_zr_canonical_range 2 3 (by decide) (by decide) (by decide) (by decide)
  exact ⟨h1, h2, h3, h4, h5, h6 (by decide)⟩

/-- C4: on canonical inputs, the wrapper's Zr operations compute the
mathematical mod-r results — `add` and `negate` through the plain `bn_mod`
path, `sub` and `mul` through the add-back-if-negative path — and
`negate(0) = 0`. -/
theorem c4_zr_mod_semantics {a b : ℤ} (ha0 : 0 ≤ a) (ha : a < order) (hb0 : 0 ≤ b)
    (hb : b < order) :
    wrapper_bn_add a b = (a + b) % order ∧
    wrapper_bn_sub a b = (a - b) % order ∧
    wrapper_bn_mul a b = a * b % order ∧
    wrapper_bn_neg a = (order - a) % order ∧
    wrapper_bn_neg 0 = 0 :=
  ⟨wrapper_bn_add_eq a b, wrapper_bn_sub_eq a b, wrapper_bn_mul_eq ha0 hb0,
   wrapper_bn_neg_eq a, by rw [wrapper_bn_neg_eq]; simp⟩

theorem c4_witness :
    wrapper_bn_add 2 3 = (2 + 3) % order ∧
    wrapper_bn_sub 2 3 = (2 - 3) % order ∧
    wrapper_bn_mul 2 3 = 2 * 3 % order ∧
    wrapper_bn_neg 2 = (order - 2) % order ∧
    wrapper_bn_neg 0 = 0 :=
  @c4_zr_mod_semantics 2 3 (by decide) (by decide) (by decide) (by decide)

/-- C5: bilinearity as exposed by the wrapper: for valid P, Q and all scalars
a, b, pairing the scalar multiples equals exponentiating the pairing by the
wrapper's reduced product `wrapper_bn_mul a b`. -/
theorem c5_pairing_bilinear (P : G1) (Q : G2) (a b : ℤ)
    (hP : wrapper_g1_is_valid P = true) (hQ : wrapper_g2_is_valid Q = true) :
    wrapper_pc_map (wrapper_g1_mul P a) (wrapper_g2_mul Q b) =
      wrapper_gt_mul (wrapper_pc_map P Q) (wrapper_bn_mul a b) := by
  simp only [wrapper_pc_map, pc_map, wrapper_g1_mul, wrapper_g2_mul, ep_mul,
    wrapper_gt_mul, gt_exp]
  rw [wrapper_bn_mul_cast]
  push_cast
  ring

theorem c5_witness :
    wrapper_pc_map (wrapper_g1_mul ⟨1, 0, 1⟩ 2) (wrapper_g2_mul ⟨1, 0, 1⟩ 3) =
      wrapper_gt_mul (wrapper_pc_map ⟨1, 0, 1⟩ ⟨1, 0, 1⟩) (wrapper_bn_mul 2 3) :=
  c5_pairing_bilinear ⟨1, 0, 1⟩ ⟨1, 0, 1⟩ 2 3 (by decide) (by decide)

/-- C6: `wrapper_bn_inv` fails exactly on the additive identity 0; on every
nonzero canonical scalar it succeeds with the sign-normalized inverse in
`[0, r)`, and multiplying back through `wrapper_bn_mul` gives 1. -/
theorem c6_invert_spec {a : ℤ} (ha0 : 0 ≤ a) (halt : a < order) :
    ((wrapper_bn_inv a).1 = .err ↔ a = 0) ∧
    (a ≠ 0 → (wrapper_bn_inv a).1 = .ok ∧
      0 ≤ (wrapper_bn_inv a).2 ∧ (wrapper_bn_inv a).2 < order ∧
      wrapper_bn_mul a ((wrapper_bn_inv a).2) = 1) := by
  by_cases hz : a = 0
  · subst hz
    exact ⟨by simp [wrapper_bn_inv], fun h => absurd rfl h⟩
  · have h0 : 0 < a := lt_of_le_of_ne ha0 (Ne.symm hz)
    obtain ⟨_, hv0, hvlt, hmul⟩ := bn_mod_inv_canonical h0 halt
    rw [wrapper_bn_inv_eq h0 halt]
    refine ⟨by simp [hz], fun _ => ⟨rfl, hv0, hvlt, ?_⟩⟩
    rw [wrapper_bn_mul_eq ha0 hv0]
    exact hmul

theorem c6_witness :
    ((wrapper_bn_inv 2).1 = .err ↔ (2 : ℤ) = 0) ∧
    ((wrapper_bn_inv 2).1 = .ok ∧
      0 ≤ (wrapper_bn_inv 2).2 ∧ (wrapper_bn_inv 2).2 < order ∧
      wrapper_bn_mul 2 ((wrapper_bn_inv 2).2) = 1) := by
  obtain ⟨h1, h2⟩ := @c6_invert_spec 2 (by decide) (by decide)
  exact ⟨h1, h2 (by decide)⟩

/-- C7: equality is decided by the engine's group-law comparison, so any
(possibly non-normalized) representation of a valid point compares equal to
its normalized form, for G1 and for G2 alike. -/
theorem c7_norm_compares_equal :
    (∀ a : G1, wrapper_g1_is_valid a = true →
      wrapper_g1_is_equal a (wrapper_g1_norm a) = true) ∧
    (∀ a : G2, wrapper_g2_is_valid a = true →
      wrapper_g2_is_equal a (wrapper_g2_norm a) = true) := by
  constructor
  · intro a _
    simp [wrapper_g1_is_equal, ep_cmp_eq, wrapper_g1_norm, ep_norm]
  · intro a _
    simp [wrapper_g2_is_equal, ep_cmp_eq, wrapper_g2_norm, ep_norm]

theorem c7_witness :
    wrapper_g1_is_equal ⟨1, 0, 5⟩ (wrapper_g1_norm ⟨1, 0, 5⟩) = true ∧
    wrapper_g2_is_equal ⟨1, 0, 5⟩ (wrapper_g2_norm ⟨1, 0, 5⟩) = true :=
  ⟨c7_norm_compares_equal.1 ⟨1, 0, 5⟩ (by decide),
   c7_norm_compares_equal.2 ⟨1, 0, 5⟩ (by decide)⟩

/-- C8: `wrapper_bn_rand` computes exactly `wrapper_bn_read_bin` with
`reduce = true` on the same bytes: parse big-endian, then reduce mod r. -/
theorem c8_rand_is_read_reduce :
    ∀ src : List Byte, wrapper_bn_rand src = wrapper_bn_read_bin src true :=
  fun _ => rfl

/-- C9: under the enforced `ALLOC == AUTO` configuration the three init
wrappers perform no object initialization whatsoever — the heap of engine
objects, including the object the pointer argument refers to, is returned
untouched — because their alloc macros name `bn->value`, an identifier that
is not in scope, instead of the parameter. -/
theorem c9_init_touches_nothing :
    ∀ (p : ℕ) (heap : ℕ → Bool),
      wrapper_g1_init p heap = (.ok, heap) ∧
      wrapper_g2_init p heap = (.ok, heap) ∧
      wrapper_gt_init p heap = (.ok, heap) :=
  fun _ _ => ⟨rfl, rfl, rfl⟩

/-- C10: on the zero scalar, `wrapper_bn_inv` reports the error before any
mutation, so the value it was given is unchanged on the failure path. -/
theorem c10_inv_zero_unchanged :
    ∀ val : ℤ, val = 0 → wrapper_bn_inv val = (.err, val) := by
  intro val h
  subst h
  rfl

theorem c10_witness : wrapper_bn_inv 0 = (.err, 0) :=
  c10_inv_zero_unchanged 0 rfl
